import Mathlib

/-!
Shallow embedding of the PureCut background-remover core (src/src/App.tsx).

The component state is the four `useState` hooks; the operations are
`processFile` (ingestion), `removeBackground` (split into its synchronous
prefix `startRemoval` and the awaited continuation `applyReply` /
`applyFailure`), and `reset`.  The spec's five-state pipeline is the
projection `pipelineState` the UI renders from those hooks.
-/

namespace PureCut

/-- React state of the App component: the `sourceImage`, `resultImage`,
`isProcessing` and `error` hooks (App.tsx lines 15-18).  A JS
`string | null` becomes `Option String`. -/
structure AppState where
  sourceImage : Option String
  resultImage : Option String
  isProcessing : Bool
  error : Option String
deriving Repr, DecidableEq

/-- The initial values of the four hooks: `null`, `null`, `false`, `null`. -/
def initialState : AppState := ⟨none, none, false, none⟩

/-- An uploaded file: its declared MIME type (`file.type`) and the data URL
that `FileReader.readAsDataURL` delivers for it.  The asynchronous reader
callback is modelled as delivering `dataURL` directly. -/
structure File where
  type : String
  dataURL : String
deriving Repr, DecidableEq

/-- The ingestion error message set at App.tsx line 30. -/
def invalidFileMsg : String := "Please upload a valid image file."

/-- The message of the error thrown when the reply holds no image
(App.tsx line 81), surfaced by the catch block at line 85. -/
def noImageMsg : String :=
  "Failed to generate a cutout. The model did not return an image."

/-- JS `s.startsWith(pre)`: `pre`'s characters are a prefix of `s`'s. -/
def jsStartsWith (s pre : String) : Bool := pre.data.isPrefixOf s.data

/-- The `processFile` handler (App.tsx lines 28-41): a declared type not
starting with `image/` only records an error; otherwise the data URL is
stored as the source and the result and error are cleared. -/
def processFile (f : File) (s : AppState) : AppState :=
  if jsStartsWith f.type "image/" = false then
    { s with error := some invalidFileMsg }
  else
    { s with sourceImage := some f.dataURL, resultImage := none, error := none }

/-- JS `String.prototype.split` with a single-character separator, on the
character list of the string: split at every occurrence, keep empty pieces,
always return at least one piece. -/
def splitChar (c : Char) : List Char → List (List Char)
  | [] => [[]]
  | x :: xs =>
    if x = c then [] :: splitChar c xs
    else
      match splitChar c xs with
      | [] => [[x]]
      | y :: ys => (x :: y) :: ys

/-- `src.split(c)` as used at App.tsx lines 50-51, lifted to Lean strings. -/
def jsSplit (c : Char) (src : String) : List String :=
  (splitChar c src.data).map String.mk

/-- `sourceImage.split(',')[1]` (App.tsx line 50); `none` models the JS
`undefined` of an out-of-range index. -/
def base64DataOf (src : String) : Option String := (jsSplit ',' src).get? 1

/-- `sourceImage.split(';')[0].split(':')[1]` (App.tsx line 51).  `split`
never returns an empty array, so the `[0]` access always hits a piece. -/
def mimeTypeOf (src : String) : Option String :=
  (jsSplit ':' ((jsSplit ';' src).headD "")).get? 1

/-- One part of the outgoing `generateContent` request (App.tsx lines 56-66):
inline image data with a MIME type — both `Option`, because the JS string
indexing feeding them can yield `undefined` — or instruction text. -/
inductive ReqPart where
  | inlineData (data : Option String) (mimeType : Option String)
  | text (t : String)
deriving Repr, DecidableEq

/-- The fixed instruction sent with every request (App.tsx line 64). -/
def instructionText : String :=
  "Remove the background from this image and return only the subject with a transparent background. Output the result as an image."

/-- The request body built by `removeBackground` (App.tsx lines 50-67): the
encoded image part followed by the fixed instruction text. -/
def buildRequest (src : String) : List ReqPart :=
  [ReqPart.inlineData (base64DataOf src) (mimeTypeOf src),
   ReqPart.text instructionText]

/-- The synchronous prefix of `removeBackground` (App.tsx lines 43-68), up to
and including issuing the model request.  The guard `if (!sourceImage) return`
fires when the source is `null` or the empty string (JS falsiness); past it,
`isProcessing` is set, `error` is cleared, and the built request joins the
list of outstanding requests.  The awaited continuation is `applyReply` or,
for a transport failure, `applyFailure`. -/
def startRemoval (s : AppState) (pending : List (List ReqPart)) :
    AppState × List (List ReqPart) :=
  match s.sourceImage with
  | none => (s, pending)
  | some src =>
    if src = "" then (s, pending)
    else ({ s with isProcessing := true, error := none },
          pending ++ [buildRequest src])

/-- A part of the model reply, the genai `Part` shape used at App.tsx
lines 71-77: inline image data or text. -/
inductive RespPart where
  | inlineData (data : String) (mimeType : String)
  | text (t : String)
deriving Repr, DecidableEq

/-- The `data` behind a reply part's inline image, when present; `isSome` of
this is the truthiness test `if (part.inlineData)` at App.tsx line 72. -/
def inlineDataOf : RespPart → Option String
  | RespPart.inlineData d _ => some d
  | RespPart.text _ => none

/-- The `content` of a reply candidate, whose `parts` may be missing. -/
structure Content where
  parts : Option (List RespPart)
deriving Repr, DecidableEq

/-- A reply candidate, whose `content` may be missing. -/
structure Candidate where
  content : Option Content
deriving Repr, DecidableEq

/-- A model reply; the `candidates` array itself may be missing. -/
structure Reply where
  candidates : Option (List Candidate)
deriving Repr, DecidableEq

/-- The optional chain `response.candidates?.[0]?.content?.parts || []`
(App.tsx line 71).  An empty `parts` array is truthy in JS and is kept, which
coincides with `getD` returning it. -/
def replyParts (r : Reply) : List RespPart :=
  match r.candidates with
  | none => []
  | some cs =>
    match cs.head? with
    | none => []
    | some c =>
      match c.content with
      | none => []
      | some ct => ct.parts.getD []

/-- The scan loop at App.tsx lines 70-78: the data of the first part carrying
inline image data, if any; the loop breaks at the first hit. -/
def findFirstInline : List RespPart → Option String
  | [] => none
  | p :: ps =>
    match inlineDataOf p with
    | some d => some d
    | none => findFirstInline ps

/-- The continuation of `removeBackground` once the reply arrives (App.tsx
lines 70-88): store the first inline image as a PNG data URL, or let the
no-image error reach the catch block; either way the `finally` clause drops
`isProcessing`. -/
def applyReply (r : Reply) (s : AppState) : AppState :=
  match findFirstInline (replyParts r) with
  | some d =>
    { s with resultImage := some ("data:image/png;base64," ++ d),
             isProcessing := false }
  | none => { s with error := some noImageMsg, isProcessing := false }

/-- The catch branch for a transport failure (App.tsx lines 83-88): record
the failure message and drop `isProcessing`. -/
def applyFailure (msg : String) (s : AppState) : AppState :=
  { s with error := some msg, isProcessing := false }

/-- The `reset` handler (App.tsx lines 101-106): clear source, result and
error.  The `isProcessing` flag is not touched. -/
def reset (s : AppState) : AppState :=
  { s with sourceImage := none, resultImage := none, error := none }

/-- The five pipeline states of the spec's state machine. -/
inductive PipelineState where
  | Idle
  | Loaded
  | Processing
  | Succeeded
  | Failed
deriving Repr, DecidableEq

/-- The spec's PipelineState as the UI projects it from the hooks (App.tsx
lines 151-232): without a source the idle upload panel shows; with one, the
processing spinner dominates, then a present result means success, a recorded
error failure, and otherwise the image is merely loaded. -/
def pipelineState (s : AppState) : PipelineState :=
  match s.sourceImage with
  | none => PipelineState.Idle
  | some _ =>
    if s.isProcessing then PipelineState.Processing
    else if s.resultImage.isSome then PipelineState.Succeeded
    else if s.error.isSome then PipelineState.Failed
    else PipelineState.Loaded

/-- A source asset as the spec's data model sees it: the base64 payload and
media type carried by a data URL `data:<mediaType>;base64,<payload>`. -/
structure SourceAsset where
  mediaType : String
  payload : String
deriving Repr, DecidableEq

/-- The data URL `FileReader.readAsDataURL` produces for an asset. -/
def dataURL (a : SourceAsset) : String :=
  "data:" ++ a.mediaType ++ ";base64," ++ a.payload

/-! Helper lemmas about `splitChar` and string data. -/

theorem strData_append (s t : String) : (s ++ t).data = s.data ++ t.data := rfl

theorem splitChar_ne_nil (c : Char) (xs : List Char) : splitChar c xs ≠ [] := by
  induction xs with
  | nil => simp [splitChar]
  | cons x xs ih =>
    by_cases hx : x = c
    · simp [splitChar, hx]
    · simp only [splitChar, if_neg hx]
      rcases h : splitChar c xs with _ | ⟨y, ys⟩ <;> simp

theorem splitChar_of_not_mem (c : Char) (xs : List Char) (h : c ∉ xs) :
    splitChar c xs = [xs] := by
  induction xs with
  | nil => rfl
  | cons x xs ih =>
    rw [List.mem_cons, not_or] at h
    have hx : ¬ x = c := fun e => h.1 e.symm
    simp [splitChar, hx, ih h.2]

theorem splitChar_append (c : Char) (xs ys : List Char) (h : c ∉ xs) :
    splitChar c (xs ++ c :: ys) = xs :: splitChar c ys := by
  induction xs with
  | nil => simp [splitChar]
  | cons x xs ih =>
    rw [List.mem_cons, not_or] at h
    have hx : ¬ x = c := fun e => h.1 e.symm
    simp [splitChar, hx, ih h.2]

theorem base64DataOf_dataURL (a : SourceAsset)
    (hm : ',' ∉ a.mediaType.data) (hp : ',' ∉ a.payload.data) :
    base64DataOf (dataURL a) = some a.payload := by
  have hdata : (dataURL a).data =
      ("data:".data ++ a.mediaType.data ++ ";base64".data) ++ ',' :: a.payload.data := by
    have h1 : (";base64,").data = ";base64".data ++ [','] := rfl
    simp [dataURL, strData_append, h1, List.append_assoc]
  have hnotin : (',' : Char) ∉ "data:".data ++ a.mediaType.data ++ ";base64".data := by
    simp only [List.mem_append, not_or]
    exact ⟨⟨by decide, hm⟩, by decide⟩
  rw [base64DataOf, jsSplit, hdata, splitChar_append _ _ _ hnotin,
    splitChar_of_not_mem _ _ hp]
  rfl

theorem mimeTypeOf_dataURL (a : SourceAsset)
    (hsemi : ';' ∉ a.mediaType.data) (hcolon : ':' ∉ a.mediaType.data) :
    mimeTypeOf (dataURL a) = some a.mediaType := by
  have hdata : (dataURL a).data =
      ("data:".data ++ a.mediaType.data) ++ ';' :: ("base64,".data ++ a.payload.data) := by
    have h1 : (";base64,").data = ';' :: "base64,".data := rfl
    simp [dataURL, strData_append, h1, List.append_assoc]
  have hnot : (';' : Char) ∉ "data:".data ++ a.mediaType.data := by
    simp only [List.mem_append, not_or]
    exact ⟨by decide, hsemi⟩
  have h2 : jsSplit ';' (dataURL a) =
      String.mk ("data:".data ++ a.mediaType.data) ::
        (splitChar ';' ("base64,".data ++ a.payload.data)).map String.mk := by
    rw [jsSplit, hdata, splitChar_append _ _ _ hnot]
    rfl
  rw [mimeTypeOf, h2, List.headD_cons]
  have h3 : "data:".data ++ a.mediaType.data = "data".data ++ ':' :: a.mediaType.data := rfl
  have h5 : splitChar ':' (String.mk ("data:".data ++ a.mediaType.data)).data
      = ["data".data, a.mediaType.data] := by
    show splitChar ':' ("data:".data ++ a.mediaType.data) = _
    rw [h3, splitChar_append _ _ _ (by decide), splitChar_of_not_mem _ _ hcolon]
  rw [jsSplit, h5]
  rfl

/-! Helper lemmas about the reply scan. -/

theorem findFirstInline_first_hit (pre post : List RespPart) (d m : String)
    (hpre : ∀ p ∈ pre, inlineDataOf p = none) :
    findFirstInline (pre ++ RespPart.inlineData d m :: post) = some d := by
  induction pre with
  | nil => rfl
  | cons p ps ih =>
    have hp := hpre p (List.mem_cons_self p ps)
    simp only [List.cons_append, findFirstInline, hp]
    exact ih fun q hq => hpre q (List.mem_cons_of_mem p hq)

theorem findFirstInline_eq_none (l : List RespPart)
    (h : ∀ p ∈ l, inlineDataOf p = none) : findFirstInline l = none := by
  induction l with
  | nil => rfl
  | cons p ps ih =>
    simp only [findFirstInline, h p (List.mem_cons_self p ps)]
    exact ih fun q hq => h q (List.mem_cons_of_mem p hq)

/-! The claims. -/

/-- C1: the spec demands a stale-response guard — after a `reset` during
`Processing`, a reply from the superseded request must not mutate the
now-current state.  The code carries no generation marker, and this concrete
trace shows the guard is absent: ingest a PNG, start removal, reset while the
request is in flight; when the superseded request's reply (one inline image
part) then arrives, the code mutates the post-reset idle state — the result
asset appears in it. -/
theorem c1_stale_reply_mutates :
    (let f : File := ⟨"image/png", "data:image/png;base64,AAAA"⟩
     let lateReply : Reply :=
       ⟨some [⟨some ⟨some [RespPart.inlineData "XYZ" "image/png"]⟩⟩]⟩
     let afterReset : AppState :=
       reset (startRemoval (processFile f initialState) []).1
     pipelineState afterReset = PipelineState.Idle ∧
       applyReply lateReply afterReset ≠ afterReset ∧
       (applyReply lateReply afterReset).resultImage =
         some "data:image/png;base64,XYZ") := by
  decide

/-- C2 as stated is false on the code: `removeBackground` has no
`isProcessing` guard — its only guard is on the source — so from a
`Processing` state with a source loaded a re-entrant call proceeds and issues
one more model request: the outstanding request count changes. -/
theorem c2_counterexample :
    (let s : AppState := ⟨some "data:image/png;base64,AAAA", none, true, none⟩
     pipelineState s = PipelineState.Processing ∧
       (startRemoval s []).2.length ≠ ([] : List (List ReqPart)).length) := by
  decide

/-- C2 amended: a call to `startRemoval` while already `Processing` with a
source loaded is not a no-op — it keeps the processing flag, clears the
error, leaves both assets untouched, and appends one more outstanding model
request; the at-most-one-in-flight property is not enforced by the function
itself (the UI hides the trigger while processing). -/
theorem c2_reentrant_starts_again (s : AppState) (pending : List (List ReqPart))
    (src : String) (hsrc : s.sourceImage = some src) (hne : ¬ src = "")
    (hproc : s.isProcessing = true) :
    pipelineState s = PipelineState.Processing ∧
    startRemoval s pending =
      ({ s with isProcessing := true, error := none },
        pending ++ [buildRequest src]) ∧
    (startRemoval s pending).2.length = pending.length + 1 := by
  refine ⟨?_, ?_, ?_⟩
  · simp [pipelineState, hsrc, hproc]
  · simp [startRemoval, hsrc, hne]
  · simp [startRemoval, hsrc, hne]

/-- Witness for the amended C2 at a concrete Processing state. -/
theorem c2_reentrant_witness :
    (let s : AppState := ⟨some "data:image/png;base64,AAAA", none, true, none⟩
     pipelineState s = PipelineState.Processing ∧
       startRemoval s [] =
         ({ s with isProcessing := true, error := none },
           [] ++ [buildRequest "data:image/png;base64,AAAA"]) ∧
       (startRemoval s []).2.length = List.length ([] : List (List ReqPart)) + 1) :=
  c2_reentrant_starts_again _ _ _ (by decide) (by decide) (by decide)

/-- C3: a file whose declared MIME type does not start with `image/` only
records the invalid-file error: source, result and the processing flag are
untouched, so no SourceAsset is produced and the state is unchanged except
for the ErrorRecord. -/
theorem c3_invalid_type (f : File) (s : AppState)
    (h : jsStartsWith f.type "image/" = false) :
    processFile f s = { s with error := some invalidFileMsg } := by
  simp [processFile, h]

/-- Witness for C3 at a concrete non-image file. -/
theorem c3_witness :
    processFile ⟨"text/plain", "u"⟩ initialState =
      { initialState with error := some invalidFileMsg } :=
  c3_invalid_type _ _ (by decide)

/-- C4: a file whose declared MIME type starts with `image/` replaces the
source with the file's data URL and clears any prior result and error, from
any starting state; when the processing flag is down (as in every state the
ingest handlers are reachable from) the pipeline lands in `Loaded`. -/
theorem c4_valid_ingest (f : File) (s : AppState)
    (h : jsStartsWith f.type "image/" = true) (hp : s.isProcessing = false) :
    processFile f s =
      { s with sourceImage := some f.dataURL, resultImage := none, error := none } ∧
    pipelineState (processFile f s) = PipelineState.Loaded := by
  constructor
  · simp [processFile, h]
  · simp [processFile, h, pipelineState, hp]

/-- Witness for C4: ingesting a PNG over a prior result and error. -/
theorem c4_witness :
    (let f : File := ⟨"image/png", "data:image/png;base64,AAAA"⟩
     let s : AppState := ⟨some "data:image/gif;base64,OLD",
       some "data:image/png;base64,OLDRES", false, some "old error"⟩
     processFile f s =
       { s with sourceImage := some f.dataURL, resultImage := none, error := none } ∧
       pipelineState (processFile f s) = PipelineState.Loaded) :=
  c4_valid_ingest _ _ (by decide) (by decide)

/-- C5: for a source asset whose media type and base64 payload are free of
the delimiter characters (true of every real MIME type and base64 string),
the request built from its data URL is exactly the two ordered parts: first
the encoded image with its media type, then the fixed instruction text.
Determinism holds because `buildRequest` is a pure function of the asset's
data URL. -/
theorem c5_buildRequest (a : SourceAsset)
    (h₁ : ',' ∉ a.mediaType.data) (h₂ : ';' ∉ a.mediaType.data)
    (h₃ : ':' ∉ a.mediaType.data) (h₄ : ',' ∉ a.payload.data) :
    buildRequest (dataURL a) =
      [ReqPart.inlineData (some a.payload) (some a.mediaType),
        ReqPart.text instructionText] ∧
    (buildRequest (dataURL a)).length = 2 := by
  constructor
  · rw [buildRequest, base64DataOf_dataURL a h₁ h₄, mimeTypeOf_dataURL a h₂ h₃]
  · rfl

/-- Witness for C5 at a concrete PNG asset. -/
theorem c5_witness :
    buildRequest (dataURL ⟨"image/png", "AAAA"⟩) =
      [ReqPart.inlineData (some "AAAA") (some "image/png"),
        ReqPart.text instructionText] ∧
    (buildRequest (dataURL ⟨"image/png", "AAAA"⟩)).length = 2 :=
  c5_buildRequest _ (by decide) (by decide) (by decide) (by decide)

/-- C6: when the reply's part list is some (possibly empty) run of parts
without inline data followed by an inline image part and anything after it,
the scan returns that first inline part's data, and applying the reply stores
it — prefixed as a PNG data URL — as the result; text parts and all later
image parts are ignored. -/
theorem c6_first_inline (r : Reply) (s : AppState) (pre post : List RespPart)
    (d m : String) (hparts : replyParts r = pre ++ RespPart.inlineData d m :: post)
    (hpre : ∀ p ∈ pre, inlineDataOf p = none) :
    findFirstInline (replyParts r) = some d ∧
    (applyReply r s).resultImage = some ("data:image/png;base64," ++ d) := by
  have h := findFirstInline_first_hit pre post d m hpre
  constructor
  · rw [hparts]; exact h
  · simp [applyReply, hparts, h]

/-- Witness for C6: a reply with a text part and two inline image parts
yields the first image, not the second. -/
theorem c6_witness :
    (let r : Reply := ⟨some [⟨some ⟨some [RespPart.text "here you go",
       RespPart.inlineData "FIRST" "image/png",
       RespPart.inlineData "SECOND" "image/png"]⟩⟩]⟩
     findFirstInline (replyParts r) = some "FIRST" ∧
       (applyReply r initialState).resultImage =
         some ("data:image/png;base64," ++ "FIRST")) :=
  c6_first_inline _ initialState [RespPart.text "here you go"]
    [RespPart.inlineData "SECOND" "image/png"] "FIRST" "image/png"
    (by decide) (by decide)

/-- C7: a reply none of whose parts carries inline data — which covers a
candidate-less or empty reply, whose part list is empty — drives the attempt
into the catch branch: the no-image error is recorded, the processing flag
drops, the result stays absent (it was absent while processing), and the
pipeline shows `Failed`. -/
theorem c7_no_image (r : Reply) (s : AppState) (u : String)
    (hr : ∀ p ∈ replyParts r, inlineDataOf p = none)
    (hsrc : s.sourceImage = some u) (hres : s.resultImage = none) :
    applyReply r s = { s with error := some noImageMsg, isProcessing := false } ∧
    (applyReply r s).resultImage = none ∧
    pipelineState (applyReply r s) = PipelineState.Failed := by
  have h := findFirstInline_eq_none _ hr
  refine ⟨?_, ?_, ?_⟩
  · simp [applyReply, h]
  · simp [applyReply, h, hres]
  · simp [applyReply, h, pipelineState, hsrc, hres]

/-- Witness for C7: a text-only reply arriving in a Processing state. -/
theorem c7_witness :
    (let r : Reply := ⟨some [⟨some ⟨some [RespPart.text "no image for you"]⟩⟩]⟩
     let s : AppState := ⟨some "data:image/png;base64,AAAA", none, true, none⟩
     applyReply r s = { s with error := some noImageMsg, isProcessing := false } ∧
       (applyReply r s).resultImage = none ∧
       pipelineState (applyReply r s) = PipelineState.Failed) :=
  c7_no_image _ _ "data:image/png;base64,AAAA" (by decide) (by decide) (by decide)

/-- C8: from every state, `reset` clears the source, the result and the
error, and the pipeline shows `Idle`; from any state whose processing flag is
down — in particular `Succeeded` and `Failed` — the result is exactly the
initial state.  (The flag itself is not touched by `reset`: a reset during
`Processing` leaves it up until the in-flight `finally` clears it.) -/
theorem c8_reset (s : AppState) :
    pipelineState (reset s) = PipelineState.Idle ∧
    (reset s).sourceImage = none ∧ (reset s).resultImage = none ∧
    (reset s).error = none ∧
    reset { s with isProcessing := false } = initialState :=
  ⟨rfl, rfl, rfl, rfl, rfl⟩

/-- C9: with no source loaded the guard `if (!sourceImage) return` fires:
`startRemoval` changes no state field and issues no request. -/
theorem c9_idle_noop (s : AppState) (pending : List (List ReqPart))
    (h : s.sourceImage = none) :
    startRemoval s pending = (s, pending) := by
  simp [startRemoval, h]

/-- Witness for C9 at the initial (Idle) state. -/
theorem c9_witness : startRemoval initialState [] = (initialState, []) :=
  c9_idle_noop _ _ rfl

/-- C10: `startRemoval` is permitted from `Failed` — the guard only tests the
source.  With a source present and an error recorded it clears the error,
raises the processing flag, issues the request, and the outcome coincides
with a removal started from the corresponding `Loaded` state (the same state
with the error dropped). -/
theorem c10_retry_from_failed (s : AppState) (pending : List (List ReqPart))
    (src e : String) (hsrc : s.sourceImage = some src) (hne : ¬ src = "")
    (herr : s.error = some e) (hres : s.resultImage = none)
    (hproc : s.isProcessing = false) :
    pipelineState s = PipelineState.Failed ∧
    startRemoval s pending =
      ({ s with isProcessing := true, error := none },
        pending ++ [buildRequest src]) ∧
    startRemoval s pending = startRemoval { s with error := none } pending ∧
    pipelineState (startRemoval s pending).1 = PipelineState.Processing := by
  refine ⟨?_, ?_, ?_, ?_⟩
  · simp [pipelineState, hsrc, hproc, hres, herr]
  · simp [startRemoval, hsrc, hne]
  · simp [startRemoval, hsrc, hne]
  · simp [startRemoval, hsrc, hne, pipelineState]

/-- Witness for C10 at a concrete Failed state. -/
theorem c10_witness :
    (let s : AppState := ⟨some "data:image/png;base64,AAAA", none, false,
       some "boom"⟩
     pipelineState s = PipelineState.Failed ∧
       startRemoval s [] =
         ({ s with isProcessing := true, error := none },
           [] ++ [buildRequest "data:image/png;base64,AAAA"]) ∧
       startRemoval s [] = startRemoval { s with error := none } [] ∧
       pipelineState (startRemoval s []).1 = PipelineState.Processing) :=
  c10_retry_from_failed _ _ _ "boom" (by decide) (by decide) (by decide)
    (by decide) (by decide)

end PureCut
